import Mathlib

/-!
Shallow embedding of the MovieMaster Pro server (Express + MongoDB).

The embedding models the JavaScript values that can occur in the identity
fields of stored documents, the string primitives the server uses
(`parseInt`, `trim`, `slice`, `toLowerCase`), the MongoDB collection
operations as operations on Lean lists (a collection is a list of documents
in insertion order; `findOne` is the first match; `deleteOne`/`updateOne`
affect the first match), and each route handler as a pure function from the
request data and the collection state to a response and a new state.
Timestamps (`new Date()`) are passed in as an integer `now` parameter.
Numbers are modelled as integers (plus an explicit NaN marker); no claim
under verification depends on fractional or overflow behaviour of JS
doubles.
-/

/-- Model of the JavaScript values that can appear in the `id` / `_id`
fields of stored documents: finite numbers, NaN, strings, BSON ObjectId
values (carried as their 24-character hex string form), booleans, null and
undefined. -/
inductive JSVal where
  | vNum (n : Int)
  | vNaN
  | vStr (s : String)
  | vObjectId (hex : String)
  | vBool (b : Bool)
  | vNull
  | vUndefined
deriving DecidableEq, Repr

/-- JavaScript truthiness: `0`, `NaN`, `""`, `false`, `null` and
`undefined` are falsy; every other modelled value is truthy. -/
def jsTruthy : JSVal → Bool
  | .vNum n => n ≠ 0
  | .vNaN => false
  | .vStr s => s ≠ ""
  | .vObjectId _ => true
  | .vBool b => b
  | .vNull => false
  | .vUndefined => false

/-- JavaScript `typeof`: note that `typeof null` is `"object"` and both
finite numbers and NaN are `"number"`. ObjectId instances are objects. -/
def jsTypeof : JSVal → String
  | .vNum _ => "number"
  | .vNaN => "number"
  | .vStr _ => "string"
  | .vObjectId _ => "object"
  | .vBool _ => "boolean"
  | .vNull => "object"
  | .vUndefined => "undefined"

/-- Value of a hexadecimal digit character, if it is one. -/
def hexDigitVal (c : Char) : Option Nat :=
  if '0' ≤ c ∧ c ≤ '9' then some (c.toNat - '0'.toNat)
  else if 'a' ≤ c ∧ c ≤ 'f' then some (c.toNat - 'a'.toNat + 10)
  else if 'A' ≤ c ∧ c ≤ 'F' then some (c.toNat - 'A'.toNat + 10)
  else none

/-- Value of a digit character in the given radix (10 or 16 are the radixes
the server uses), if the character is a valid digit for that radix. -/
def digitVal (radix : Nat) (c : Char) : Option Nat :=
  match hexDigitVal c with
  | some v => if v < radix then some v else none
  | none => none

/-- Accumulate the value of the longest prefix of valid digits, as
JavaScript `parseInt` does; the accumulator is `none` while no digit has
been consumed yet (which `parseInt` reports as NaN). -/
def parseDigitRun (radix : Nat) : List Char → Option Nat → Option Nat
  | [], acc => acc
  | c :: cs, acc =>
    match digitVal radix c with
    | some v => parseDigitRun radix cs (some (acc.getD 0 * radix + v))
    | none => acc

/-- JavaScript `parseInt(string, radix)` on a list of characters: skip
leading whitespace, accept an optional sign, for radix 16 accept an
optional `0x`/`0X` prefix, then read the longest run of valid digits;
`none` models the NaN result when no digit is found.  (JS computes the
result in floating point and loses precision past 2^53; no identifier
the claims touch is that long-valued, so the model is exact.) -/
def jsParseIntChars (radix : Nat) (cs : List Char) : Option Int :=
  let cs1 := cs.dropWhile Char.isWhitespace
  let signAndRest : Int × List Char :=
    match cs1 with
    | '-' :: rest => (-1, rest)
    | '+' :: rest => (1, rest)
    | _ => (1, cs1)
  let cs2 : List Char :=
    if radix = 16 then
      match signAndRest.2 with
      | '0' :: 'x' :: rest => rest
      | '0' :: 'X' :: rest => rest
      | _ => signAndRest.2
    else signAndRest.2
  match parseDigitRun radix cs2 none with
  | some v => some (signAndRest.1 * (v : Int))
  | none => none

/-- JavaScript `parseInt(s, radix)`. -/
def jsParseInt (s : String) (radix : Nat) : Option Int :=
  jsParseIntChars radix s.data

/-- JavaScript `String.prototype.trim()` (whitespace from both ends). -/
def jsTrim (s : String) : String :=
  String.mk (((s.data.dropWhile Char.isWhitespace).reverse.dropWhile
    Char.isWhitespace).reverse)

/-- JavaScript `str.slice(-k)`: the last `min k (length)` characters. -/
def strSliceLast (s : String) (k : Nat) : String :=
  String.mk ((s.data.reverse.take k).reverse)

/-- String conversion of a modelled JS value (`String(v)` / `v.toString()`);
an ObjectId stringifies to its 24-character hex form. -/
def jsValToString : JSVal → String
  | .vNum n => toString n
  | .vNaN => "NaN"
  | .vStr s => s
  | .vObjectId h => h
  | .vBool b => if b then "true" else "false"
  | .vNull => "null"
  | .vUndefined => "undefined"

/-- JavaScript `Number()` coercion restricted to the integer fragment the
server exercises; `none` models NaN.  Strings are coerced by full-string
numeric parse (empty after trim is 0); objects coerce via their string
form. -/
def jsNumberOfChars (cs : List Char) : Option Int :=
  let cs1 := (cs.dropWhile Char.isWhitespace).reverse.dropWhile Char.isWhitespace
  let cs2 := cs1.reverse
  if cs2.isEmpty then some 0
  else
    let signAndRest : Int × List Char :=
      match cs2 with
      | '-' :: rest => (-1, rest)
      | '+' :: rest => (1, rest)
      | _ => (1, cs2)
    if signAndRest.2.isEmpty then none
    else if signAndRest.2.all (fun c => (digitVal 10 c).isSome) then
      match parseDigitRun 10 signAndRest.2 none with
      | some v => some (signAndRest.1 * (v : Int))
      | none => none
    else none

/-- JavaScript `Number(v)` on a modelled value; `none` models NaN. -/
def jsToNumber : JSVal → Option Int
  | .vNum n => some n
  | .vNaN => none
  | .vStr s => jsNumberOfChars s.data
  | .vObjectId h => jsNumberOfChars h.data
  | .vBool b => some (if b then 1 else 0)
  | .vNull => some 0
  | .vUndefined => none

/-- JavaScript `isNaN(v)` (coerce to number, test for NaN). -/
def jsIsNaN (v : JSVal) : Bool := (jsToNumber v).isNone

/-- Model of a stored movie document: the dual identity (`_id` canonical
key and application-level `id`) carried as raw JS values, plus the fields
the `/movies/add` handler writes.  `cast` is modelled as an array of
strings (MongoDB matches a `$regex` condition against an array field
elementwise), `rating` and `duration` as rationals. -/
structure Movie where
  _id : JSVal := .vUndefined
  id : JSVal := .vUndefined
  title : String := ""
  genre : String := ""
  releaseYear : Int := 0
  director : String := ""
  cast : List String := []
  rating : Rat := 0
  duration : Rat := 0
  plotSummary : String := ""
  posterUrl : String := ""
  language : String := ""
  country : String := ""
  addedBy : String := ""
  createdAt : Int := 0
  updatedAt : Int := 0
deriving DecidableEq, Repr

/-- The identity candidate the converter works on: `movie.id || movie._id`
(JavaScript OR takes `_id` whenever `id` is falsy). -/
def idCandidate (movie : Movie) : JSVal :=
  if jsTruthy movie.id then movie.id else movie._id

/-- Final clamping step of the converter:
`Math.max(1, Math.floor(Number(id)) || 1)`.  In the integer model `floor`
is the identity; `x || 1` replaces 0 and NaN by 1. -/
def clampMovieId (v : JSVal) : Int :=
  let orOne : Int :=
    match jsToNumber v with
    | some n => if n = 0 then 1 else n
    | none => 1
  max 1 orOne

/-- Embedding of `convertMovieToIntegerId` (src/unnamed/part_001 lines
81–145).  The `try`/`catch` wrapper of the source cannot fire in the model
(every step is total), matching the fact that none of the JS operations on
the modelled value shapes throws.  The input is a present movie document;
the `if (!movie) return null` guard is handled at the call sites. -/
def convertMovieToIntegerId (movie : Movie) : Movie :=
  let id0 := idCandidate movie
  if jsTypeof id0 == "number" && !(jsIsNaN id0) then
    { movie with _id := id0, id := id0 }
  else
    let id1 : JSVal :=
      if jsTypeof id0 == "object" && jsTruthy id0 then
        if jsTruthy movie.id && jsTypeof movie.id == "number" then
          movie.id
        else
          match jsParseInt (strSliceLast (jsValToString id0) 8) 16 with
          | some k => if k ≤ 0 then .vNum 1 else .vNum k
          | none => .vNum 1
      else if jsTypeof id0 == "string" then
        match jsParseInt (jsValToString id0) 10 with
        | some p =>
          if 0 < p then .vNum p
          else if (jsValToString id0).length = 24 then
            match jsParseInt (strSliceLast (jsValToString id0) 8) 16 with
            | some k => if k ≤ 0 then .vNum 1 else .vNum k
            | none => .vNum 1
          else .vNum 1
        | none =>
          if (jsValToString id0).length = 24 then
            match jsParseInt (strSliceLast (jsValToString id0) 8) 16 with
            | some k => if k ≤ 0 then .vNum 1 else .vNum k
            | none => .vNum 1
          else .vNum 1
      else if jsTypeof id0 != "number" then .vNum 1
      else id0
    let n := clampMovieId id1
    { movie with _id := .vNum n, id := .vNum n }

/-- Derivation of an integer from the last 8 hex characters of an
identifier string, with fallback 1 for non-positive or unparseable
results — the hex-suffix rule of the normalization contract. -/
def hexSuffixId (s : String) : Int :=
  match jsParseInt (strSliceLast s 8) 16 with
  | some k => if k ≤ 0 then 1 else k
  | none => 1

/-- Normalization contract written from the (amended) spec wording: the
precedence inspects the single candidate value `movie.id || movie._id`;
a finite numeric candidate is returned as-is (no clamping); an ObjectId
candidate gets the hex-suffix derivation; a string candidate is parsed as
a decimal integer, falling back to the hex-suffix derivation when it is
24 characters long, else to 1; every other candidate yields 1. -/
def convertMovieToIntegerIdSpec (movie : Movie) : Movie :=
  match idCandidate movie with
  | .vNum n => { movie with _id := .vNum n, id := .vNum n }
  | .vObjectId h =>
    let k := hexSuffixId h
    { movie with _id := .vNum k, id := .vNum k }
  | .vStr s =>
    let k : Int :=
      match jsParseInt s 10 with
      | some p =>
        if 0 < p then p
        else if s.length = 24 then hexSuffixId s else 1
      | none => if s.length = 24 then hexSuffixId s else 1
    { movie with _id := .vNum k, id := .vNum k }
  | _ => { movie with _id := .vNum 1, id := .vNum 1 }

/-- Candidate identities for which the converter can only produce the
fallback value 1: not a finite number, not an object, and if a string then
neither parseable to a positive decimal integer nor a 24-character string
with a positive hex-suffix parse. -/
def fallbackOnlyCandidate : JSVal → Bool
  | .vNum _ => false
  | .vObjectId _ => false
  | .vStr s =>
    (match jsParseInt s 10 with
     | some p => !decide (0 < p)
     | none => true) &&
    (if s.length = 24 then
       match jsParseInt (strSliceLast s 8) 16 with
       | some k => decide (k ≤ 0)
       | none => true
     else true)
  | _ => true

-- Sanity examples for the converter on concrete inputs.
example :
    (convertMovieToIntegerId { _id := .vObjectId "507f1f77bcf86cd799439011", id := .vUndefined }).id
      = JSVal.vNum 0x99439011 := by decide

example :
    (convertMovieToIntegerId { _id := .vStr "42", id := .vUndefined }).id = JSVal.vNum 42 := by
  decide

example :
    (convertMovieToIntegerId { _id := .vNull, id := .vStr "abc" }).id = JSVal.vNum 1 := by
  decide

example :
    (convertMovieToIntegerId { _id := .vNum 0, id := .vUndefined }).id = JSVal.vNum 0 := by
  decide

example :
    (convertMovieToIntegerId { _id := .vNum 5, id := .vNum (-5) }).id = JSVal.vNum (-5) := by
  decide

/-- The inner numeric-id check inside the object branch of the converter is
dead: when the candidate is an ObjectId, `movie.id` is either that ObjectId
(whose `typeof` is not `"number"`) or falsy. -/
theorem inner_numeric_dead (m : Movie) (h : String)
    (hc : idCandidate m = .vObjectId h) :
    (jsTruthy m.id && jsTypeof m.id == "number") = false := by
  unfold idCandidate at hc
  by_cases ht : jsTruthy m.id
  · simp [ht] at hc
    simp [hc, jsTypeof, ht]
  · simp [ht]

/-- The converter agrees with the candidate-based normalization contract on
every movie. -/
theorem convert_eq_spec (m : Movie) :
    convertMovieToIntegerId m = convertMovieToIntegerIdSpec m := by
  unfold convertMovieToIntegerId convertMovieToIntegerIdSpec
  rcases hc : idCandidate m with n | _ | s | h | b | _ | _
  · simp [jsTypeof, jsIsNaN, jsToNumber]
  · simp [jsTypeof, jsIsNaN, jsToNumber, jsTruthy, clampMovieId]
  · simp [jsTypeof, jsIsNaN, jsToNumber, jsTruthy, jsValToString, hexSuffixId, clampMovieId]
    rcases hp : jsParseInt s 10 with _ | p
    · simp [hp]
      by_cases hlen : s.length = 24 <;> simp [hlen]
      rcases hq : jsParseInt (strSliceLast s 8) 16 with _ | q <;> simp [hq]
      by_cases hq0 : q ≤ 0 <;> simp [hq0, jsToNumber] <;> omega
    · simp [hp]
      by_cases hp0 : 0 < p
      · simp [hp0]
        omega
      · simp [hp0]
        by_cases hlen : s.length = 24 <;> simp [hlen]
        rcases hq : jsParseInt (strSliceLast s 8) 16 with _ | q <;> simp [hq]
        by_cases hq0 : q ≤ 0 <;> simp [hq0, jsToNumber] <;> omega
  · have hd := inner_numeric_dead m h hc
    simp only [hd, Bool.false_eq_true, if_false]
    simp [jsTypeof, jsIsNaN, jsToNumber, jsTruthy, jsValToString, hexSuffixId, clampMovieId]
    rcases hq : jsParseInt (strSliceLast h 8) 16 with _ | q <;> simp [hq]
    by_cases hq0 : q ≤ 0 <;> simp [hq0, jsToNumber] <;> omega
  · simp [jsTypeof, jsIsNaN, jsToNumber, jsTruthy, clampMovieId]
  · simp [jsTypeof, jsIsNaN, jsToNumber, jsTruthy, clampMovieId]
  · simp [jsTypeof, jsIsNaN, jsToNumber, jsTruthy, clampMovieId]

/-- Movie whose stored `id` is the finite number −5: the converter returns
it unchanged, bypassing the claimed minimum-1 clamp. -/
def cexMovieC1 : Movie := { id := .vNum (-5), _id := .vUndefined }

/-- C1 counterexample: the converter does not clamp an existing numeric id;
for the stored id −5 it returns canonical key and id equal to −5, which is
below the claimed minimum of 1. -/
theorem convert_no_clamp_on_numeric_id :
    (convertMovieToIntegerId cexMovieC1).id = JSVal.vNum (-5) ∧
    (convertMovieToIntegerId cexMovieC1)._id = JSVal.vNum (-5) ∧
    (-5 : Int) < 1 := by decide

/-- C1 (amended): the converter equals the candidate-based normalization
contract — the precedence is applied to the single candidate value
`movie.id || movie._id`; a finite numeric candidate is returned as-is with
no clamping; ObjectId candidates use the last-8-hex derivation; string
candidates use decimal parse, then the hex-suffix rule when 24 characters
long, else 1; other candidates give 1; all non-numeric-candidate branches
produce a result of at least 1.  In particular for every movie whose `id`
is a positive integer the output's canonical key and `id` equal it. -/
theorem convert_normalization_amended :
    (∀ m : Movie, convertMovieToIntegerId m = convertMovieToIntegerIdSpec m) ∧
    (∀ (m : Movie) (k : Int), jsTypeof (idCandidate m) ≠ "number" →
      (convertMovieToIntegerId m).id = JSVal.vNum k → 1 ≤ k) ∧
    (∀ (m : Movie) (n : Int), m.id = JSVal.vNum n → 0 < n →
      (convertMovieToIntegerId m)._id = JSVal.vNum n ∧
      (convertMovieToIntegerId m).id = JSVal.vNum n) := by
  refine ⟨convert_eq_spec, ?_, ?_⟩
  · intro m k hnum hk
    rw [convert_eq_spec m] at hk
    unfold convertMovieToIntegerIdSpec at hk
    rcases hc : idCandidate m with n | _ | s | h | b | _ | _ <;>
      rw [hc] at hnum hk <;> simp [jsTypeof] at hnum hk ⊢
    · rcases hp : jsParseInt s 10 with _ | p <;> rw [hp] at hk
      · simp at hk
        by_cases hlen : s.length = 24 <;> simp [hlen, hexSuffixId] at hk
        · rcases hq : jsParseInt (strSliceLast s 8) 16 with _ | q <;>
            rw [hq] at hk <;> simp at hk <;> omega
        · omega
      · simp at hk
        by_cases hp0 : 0 < p <;> simp [hp0] at hk
        · omega
        · by_cases hlen : s.length = 24 <;> simp [hlen, hexSuffixId] at hk
          · rcases hq : jsParseInt (strSliceLast s 8) 16 with _ | q <;>
              rw [hq] at hk <;> simp at hk <;> omega
          · omega
    · unfold hexSuffixId at hk
      rcases hq : jsParseInt (strSliceLast h 8) 16 with _ | q <;>
        rw [hq] at hk <;> simp at hk <;> omega
    · omega
    · omega
    · omega
  · intro m n hm hn
    have hn0 : n ≠ 0 := by omega
    unfold convertMovieToIntegerId idCandidate
    simp [hm, jsTruthy, hn0, jsTypeof, jsIsNaN, jsToNumber]

/-- Movie with a positive integer id used to witness the amended C1. -/
def witMovieC1 : Movie := { id := .vNum 7, _id := .vObjectId "507f1f77bcf86cd799439011" }

/-- Witness for the amended C1 at a concrete movie with integer id 7. -/
theorem convert_normalization_amended_witness :
    (convertMovieToIntegerId witMovieC1)._id = JSVal.vNum 7 ∧
    (convertMovieToIntegerId witMovieC1).id = JSVal.vNum 7 :=
  convert_normalization_amended.2.2 witMovieC1 7 rfl (by decide)

/-- Movie whose stored `id` is the finite number −7, which the original C2
classifies as malformed (it is not a positive integer). -/
def cexMovieC2 : Movie := { id := .vNum (-7), _id := .vUndefined }

/-- C2 counterexample: a malformed identity (the non-positive number −7)
is not replaced by the fallback 1 — the converter returns −7 itself. -/
theorem convert_malformed_counterexample :
    (convertMovieToIntegerId cexMovieC2).id = JSVal.vNum (-7) ∧
    JSVal.vNum (-7) ≠ JSVal.vNum 1 := by decide

/-- C2 (amended): for every movie whose identity candidate is malformed in
the code's sense — not a finite number, not an object, and if a string then
neither parseable to a positive decimal integer nor a 24-character string
with positive hex-suffix parse — the converter returns canonical key and
`id` equal to the fallback 1; the conversion is a total function, so no
exception ever surfaces to the caller. -/
theorem convert_malformed_amended :
    ∀ m : Movie, fallbackOnlyCandidate (idCandidate m) = true →
      (convertMovieToIntegerId m)._id = JSVal.vNum 1 ∧
      (convertMovieToIntegerId m).id = JSVal.vNum 1 := by
  intro m hm
  rw [convert_eq_spec m]
  unfold convertMovieToIntegerIdSpec
  rcases hc : idCandidate m with n | _ | s | h | b | _ | _ <;>
    rw [hc] at hm <;> simp [fallbackOnlyCandidate] at hm <;> simp
  rcases hp : jsParseInt s 10 with _ | p
  · rw [hp] at hm
    simp at hm ⊢
    by_cases hlen : s.length = 24
    · simp [hlen] at hm ⊢
      unfold hexSuffixId
      rcases hq : jsParseInt (strSliceLast s 8) 16 with _ | q
      · simp
      · rw [hq] at hm
        simp at hm
        simp [hm]
    · simp [hlen]
  · rw [hp] at hm
    simp at hm ⊢
    obtain ⟨hp0, hrest⟩ := hm
    rw [if_neg (by omega)]
    by_cases hlen : s.length = 24
    · simp [hlen] at hrest ⊢
      unfold hexSuffixId
      rcases hq : jsParseInt (strSliceLast s 8) 16 with _ | q
      · simp
      · rw [hq] at hrest
        simp at hrest
        simp [hrest]
    · simp [hlen]

/-- String identity that can only produce the fallback. -/
def witMovieC2 : Movie := { _id := .vStr "not-a-valid-identifier" }

/-- Witness for the amended C2 at a concrete malformed identity. -/
theorem convert_malformed_amended_witness :
    (convertMovieToIntegerId witMovieC2)._id = JSVal.vNum 1 ∧
    (convertMovieToIntegerId witMovieC2).id = JSVal.vNum 1 :=
  convert_malformed_amended witMovieC2 (by decide)

/-- Lower-casing used for email normalization and ObjectId comparison
(`toLowerCase()`; ASCII suffices for the values the server handles). -/
def jsToLower (s : String) : String :=
  String.mk (s.data.map Char.toLower)

/-- Driver-side `ObjectId.isValid` on a string: a 24-character hexadecimal
string (the modern bson driver accepts exactly this string form). -/
def objectIdIsValid (s : String) : Bool :=
  s.length = 24 && s.data.all (fun c => (hexDigitVal c).isSome)

/-- Whether a stored canonical key matches `new ObjectId(identifier)` under
MongoDB equality: the key must itself be an ObjectId with the same bytes,
i.e. the same hex string up to letter case. -/
def objectIdFieldMatches (v : JSVal) (identifier : String) : Bool :=
  match v with
  | .vObjectId h => jsToLower h == jsToLower identifier
  | _ => false

/-- Embedding of `findMovieByIdentifier` (src/unnamed/part_001 lines
147–181): trim the parameter; if it parses to a positive integer, look the
number up in the `id` field then the `_id` field; if still unmatched and
the string is a valid ObjectId, look it up as an ObjectId `_id`; finally
fall back to literal string lookup in `_id` then `id`.  The MongoDB
`findOne` calls are first-match lookups over the collection list. -/
def findMovieByIdentifier (movies : List Movie) (idParam : String) : Option Movie :=
  if idParam == "" then none
  else
    let identifier := jsTrim idParam
    if identifier == "" then none
    else
      let step1 : Option Movie :=
        match jsParseInt identifier 10 with
        | some numericId =>
          if 0 < numericId then
            (movies.find? (fun m => m.id == JSVal.vNum numericId)).orElse
              (fun _ => movies.find? (fun m => m._id == JSVal.vNum numericId))
          else none
        | none => none
      let step2 : Option Movie :=
        match step1 with
        | some m => some m
        | none =>
          if objectIdIsValid identifier then
            movies.find? (fun m => objectIdFieldMatches m._id identifier)
          else none
      match step2 with
      | some m => some m
      | none =>
        (movies.find? (fun m => m._id == JSVal.vStr identifier)).orElse
          (fun _ => movies.find? (fun m => m.id == JSVal.vStr identifier))

/-- Attempt (a) of the reconciliation contract: parse the identifier as a
positive integer and match it against the integer `id` field, then the
canonical key. -/
def identifierNumericAttempt (movies : List Movie) (identifier : String) : Option Movie :=
  match jsParseInt identifier 10 with
  | some n =>
    if 0 < n then
      (movies.find? (fun m => m.id == JSVal.vNum n)).orElse
        (fun _ => movies.find? (fun m => m._id == JSVal.vNum n))
    else none
  | none => none

/-- Attempt (b): if the identifier has valid ObjectId format, match the
canonical key as that reference type. -/
def identifierObjectIdAttempt (movies : List Movie) (identifier : String) : Option Movie :=
  if objectIdIsValid identifier then
    movies.find? (fun m => objectIdFieldMatches m._id identifier)
  else none

/-- Attempt (c): match the string literally against the canonical key,
then against the `id` field. -/
def identifierLiteralAttempt (movies : List Movie) (identifier : String) : Option Movie :=
  (movies.find? (fun m => m._id == JSVal.vStr identifier)).orElse
    (fun _ => movies.find? (fun m => m.id == JSVal.vStr identifier))

/-- C3: the reconciler is exactly the ordered fallback of the three
attempts on the trimmed identifier — the numeric attempt first, then the
ObjectId attempt, then the literal attempt, the first attempt that finds a
movie winning — and not-found for a blank identifier or when no attempt
matches. -/
theorem findMovie_ordered_attempts (movies : List Movie) (idParam : String) :
    findMovieByIdentifier movies idParam =
      (if jsTrim idParam == "" then none
       else
         ((identifierNumericAttempt movies (jsTrim idParam)).orElse
           (fun _ => identifierObjectIdAttempt movies (jsTrim idParam))).orElse
             (fun _ => identifierLiteralAttempt movies (jsTrim idParam))) := by
  unfold findMovieByIdentifier identifierNumericAttempt identifierObjectIdAttempt
    identifierLiteralAttempt
  by_cases h0 : idParam = ""
  · subst h0
    simp [jsTrim]
  · simp only [h0, beq_iff_eq, if_neg h0]
    by_cases h1 : jsTrim idParam = ""
    · simp [h1]
    · simp only [h1, if_neg h1, beq_iff_eq]
      rcases hp : jsParseInt (jsTrim idParam) 10 with _ | n
      · rcases hv : objectIdIsValid (jsTrim idParam) with _ | _
        · simp [hv, Option.orElse]
        · simp only [hv, if_pos]
          rcases hob : movies.find? (fun m => objectIdFieldMatches m._id (jsTrim idParam))
            with _ | mo <;> simp [hob, Option.orElse]
      · by_cases hn : 0 < n
        · simp only [hn, if_pos hn]
          rcases hf1 : List.find? (fun m => m.id == JSVal.vNum n) movies with _ | m1
          · rcases hf2 : List.find? (fun m => m._id == JSVal.vNum n) movies with _ | m2
            · rcases hv : objectIdIsValid (jsTrim idParam) with _ | _
              · simp [hf1, hf2, hv, Option.orElse]
              · simp only [hf1, hf2, hv, if_pos]
                rcases hob : movies.find? (fun m => objectIdFieldMatches m._id (jsTrim idParam))
                  with _ | mo <;> simp [hf1, hf2, hob, Option.orElse]
            · simp [hf1, hf2, Option.orElse]
          · simp [hf1, Option.orElse]
        · rcases hv : objectIdIsValid (jsTrim idParam) with _ | _
          · simp [hn, hv, Option.orElse]
          · simp only [hn, hv, if_neg hn, if_pos]
            rcases hob : movies.find? (fun m => objectIdFieldMatches m._id (jsTrim idParam))
              with _ | mo <;> simp [hob, Option.orElse]

/-- The witness obligation for C3 is vacuous (no propositional hypothesis);
this instance exercises the theorem on a concrete store: the string "2"
resolves by integer id even though a movie with literal string id "2"
exists earlier in the collection. -/
theorem findMovie_concrete_resolution :
    findMovieByIdentifier
        [{ _id := .vStr "2", id := .vStr "2", title := "legacy" },
         { _id := .vNum 2, id := .vNum 2, title := "modern" }] "2"
      = some { _id := .vNum 2, id := .vNum 2, title := "modern" } := by decide

/-- Numeric `id` of a movie when the field has BSON number type
(`$type: "number"`).  No write path of this server produces a NaN id, and
the model excludes NaN from the scan. -/
def numericIdOf (m : Movie) : Option Int :=
  match m.id with
  | .vNum n => some n
  | _ => none

/-- Descending-by-`id` comparison embedding `sort({id: -1})` over the
numeric-id movies. -/
def movieIdGE (a b : Movie) : Prop :=
  (numericIdOf b).getD 0 ≤ (numericIdOf a).getD 0

instance : DecidableRel movieIdGE := fun a b => by
  unfold movieIdGE
  infer_instance

instance : IsTotal Movie movieIdGE :=
  ⟨fun a b => le_total ((numericIdOf b).getD 0) ((numericIdOf a).getD 0)⟩

instance : IsTrans Movie movieIdGE :=
  ⟨fun _ _ _ h1 h2 => le_trans h2 h1⟩

/-- Embedding of the recovery scan of `getNextMovieId` (lines 61–70):
`find({id:{$type:"number"}}).sort({id:-1}).limit(1)` takes the head of the
numeric-id movies in descending id order, and `fallbackId` is that movie's
id + 1, or 1 when there is no such movie. -/
def allocatorFallbackId (movies : List Movie) : Int :=
  match (List.insertionSort movieIdGE
      (movies.filter (fun m => (numericIdOf m).isSome))).head? with
  | some highestMovie =>
    match highestMovie.id with
    | .vNum n => n + 1
    | _ => 1
  | none => 1

/-- Embedding of `getNextMovieId` (src/unnamed/part_001 lines 42–78) over
the counter state (the `sequence_value` of the `"movieId"` counter
document, when that document exists) and the movie collection.
`legacyDriver` models the store-version quirk in which `findOneAndUpdate`
does not surface the updated document in `result.value`.  The `$inc` with
upsert creates the counter at 1 when absent.  Returns the issued id and
the new counter state; the model is sequential (no interference between
the steps of one call). -/
def getNextMovieId (legacyDriver : Bool) (counter : Option Int)
    (movies : List Movie) : Int × Option Int :=
  let counterAfterInc : Option Int := some (counter.getD 0 + 1)
  let resultValue : Option Int := if legacyDriver then none else counterAfterInc
  match resultValue with
  | some n => (n, counterAfterInc)
  | none =>
    match counterAfterInc with
    | some n => (n, counterAfterInc)
    | none =>
      let fallbackId := allocatorFallbackId movies
      (fallbackId, some fallbackId)

/-- Maximum existing numeric movie id, as the claim words the recovery
scan. -/
def maxNumericMovieId (movies : List Movie) : WithBot Int :=
  (movies.filterMap numericIdOf).maximum

/-- Allocation contract as the claim words it: atomically
increment-and-return the `"movieId"` counter with upsert; if the returned
document is absent, re-read the counter directly and return its value; if
still absent, set the next value to the maximum existing numeric id + 1
(or 1 when no numeric-id movie exists), persist it with upsert, and return
it. -/
def getNextMovieIdSpec (legacyDriver : Bool) (counter : Option Int)
    (movies : List Movie) : Int × Option Int :=
  let next := counter.getD 0 + 1
  let returnedDoc : Option Int := if legacyDriver then none else some next
  match returnedDoc with
  | some n => (n, some next)
  | none =>
    let reRead : Option Int := some next
    match reRead with
    | some n => (n, some next)
    | none =>
      let fallbackId := (maxNumericMovieId movies).unbot' 0 + 1
      (fallbackId, some fallbackId)

/-- The numeric ids of a movie list are the descending-sort keys of its
numeric-id members. -/
theorem filterMap_numericIdOf (movies : List Movie) :
    movies.filterMap numericIdOf
      = (movies.filter (fun m => (numericIdOf m).isSome)).map
          (fun m => (numericIdOf m).getD 0) := by
  induction movies with
  | nil => rfl
  | cons m rest ih => cases h : numericIdOf m <;> simp [h, ih]

/-- The recovery scan's head-of-descending-sort computation agrees with
the maximum-of-numeric-ids description. -/
theorem allocatorFallback_eq_max (movies : List Movie) :
    allocatorFallbackId movies = (maxNumericMovieId movies).unbot' 0 + 1 := by
  unfold allocatorFallbackId maxNumericMovieId
  rw [filterMap_numericIdOf]
  rcases hs : (List.insertionSort movieIdGE
      (movies.filter (fun m => (numericIdOf m).isSome))).head? with _ | hm
  · have hnil : List.insertionSort movieIdGE
        (movies.filter (fun m => (numericIdOf m).isSome)) = [] := by
      cases h : List.insertionSort movieIdGE
          (movies.filter (fun m => (numericIdOf m).isSome)) with
      | nil => rfl
      | cons a t => rw [h] at hs; simp at hs
    have hperm := List.perm_insertionSort movieIdGE
      (movies.filter (fun m => (numericIdOf m).isSome))
    rw [hnil] at hperm
    have hfil := hperm.symm.eq_nil
    simp [hfil]
  · obtain ⟨t, hts⟩ : ∃ t, List.insertionSort movieIdGE
        (movies.filter (fun m => (numericIdOf m).isSome)) = hm :: t := by
      cases h : List.insertionSort movieIdGE
          (movies.filter (fun m => (numericIdOf m).isSome)) with
      | nil => rw [h] at hs; simp at hs
      | cons a t =>
        rw [h] at hs
        simp at hs
        subst hs
        exact ⟨t, rfl⟩
    have hmem_sorted : hm ∈ List.insertionSort movieIdGE
        (movies.filter (fun m => (numericIdOf m).isSome)) := by
      rw [hts]
      exact List.mem_cons_self hm t
    have hmem : hm ∈ movies.filter (fun m => (numericIdOf m).isSome) :=
      (List.perm_insertionSort movieIdGE _).subset hmem_sorted
    have hsome : (numericIdOf hm).isSome := by
      have := List.of_mem_filter hmem
      simpa using this
    obtain ⟨k, hk⟩ := Option.isSome_iff_exists.mp hsome
    have hid : hm.id = JSVal.vNum k := by
      unfold numericIdOf at hk
      cases hmi : hm.id <;> simp_all
    have hkey : ∀ x ∈ (movies.filter (fun m => (numericIdOf m).isSome)).map
        (fun m => (numericIdOf m).getD 0), x ≤ k := by
      intro x hx
      obtain ⟨m', hm'mem, hxval⟩ := List.mem_map.mp hx
      have hmem' : m' ∈ List.insertionSort movieIdGE
          (movies.filter (fun m => (numericIdOf m).isSome)) :=
        (List.perm_insertionSort movieIdGE _).symm.subset hm'mem
      rw [hts] at hmem'
      rcases List.mem_cons.mp hmem' with h1 | h1
      · subst h1
        rw [← hxval, hk]
        simp
      · have hsorted := List.sorted_insertionSort movieIdGE
          (movies.filter (fun m => (numericIdOf m).isSome))
        rw [hts] at hsorted
        have hrel := List.rel_of_sorted_cons hsorted m' h1
        unfold movieIdGE at hrel
        rw [hk] at hrel
        rw [← hxval]
        simpa using hrel
    have hmemk : k ∈ (movies.filter (fun m => (numericIdOf m).isSome)).map
        (fun m => (numericIdOf m).getD 0) :=
      List.mem_map.mpr ⟨hm, hmem, by rw [hk]; rfl⟩
    have hmax : ((movies.filter (fun m => (numericIdOf m).isSome)).map
        (fun m => (numericIdOf m).getD 0)).maximum = (k : WithBot Int) := by
      rcases hmx : ((movies.filter (fun m => (numericIdOf m).isSome)).map
          (fun m => (numericIdOf m).getD 0)).maximum with _ | m'
      · rw [List.maximum_eq_none] at hmx
        rw [hmx] at hmemk
        simp at hmemk
      · have h1 := List.maximum_mem hmx
        have h2 : m' ≤ k := hkey m' h1
        have h3 : k ≤ m' := List.le_maximum_of_mem hmemk hmx
        rw [le_antisymm h2 h3]
        rfl
    simp [hid, hmax, WithBot.unbot']

/-- C6: the allocator follows exactly the claimed step sequence — the
atomic increment-with-upsert's returned value when present, else the
direct counter re-read, else the max-scan recovery — and the recovery
value it would persist and return is exactly max existing numeric id + 1
(or 1 when none exists). -/
theorem allocator_follows_spec :
    (∀ (legacyDriver : Bool) (counter : Option Int) (movies : List Movie),
        getNextMovieId legacyDriver counter movies
          = getNextMovieIdSpec legacyDriver counter movies) ∧
    (∀ movies : List Movie,
        allocatorFallbackId movies = (maxNumericMovieId movies).unbot' 0 + 1) := by
  constructor
  · intro legacyDriver counter movies
    cases legacyDriver <;> rfl
  · exact allocatorFallback_eq_max

/-- Normal-path allocation step: with a modern driver and an existing
counter, the atomic increment returns the new value directly. -/
theorem getNextMovieId_normal (movies : List Movie) (c : Int) :
    getNextMovieId false (some c) movies = (c + 1, some (c + 1)) := rfl

/-- Sequential (non-concurrent) runs of the allocator on the normal
(non-legacy) path: issue the given number of ids starting from a counter
state, collecting the returned values in order and the final counter
state.  On this path the atomic-increment step always succeeds, so the
recovery fallback is never taken. -/
def runAllocator (movies : List Movie) (counter : Option Int) :
    Nat → List Int × Option Int
  | 0 => ([], counter)
  | Nat.succ k =>
    let step := getNextMovieId false counter movies
    let rest := runAllocator movies step.2 k
    (step.1 :: rest.1, rest.2)

/-- After `k` sequential normal-path calls from counter value `c`, the
stored counter is `c + k`. -/
theorem runAllocator_counter (movies : List Movie) (c : Int) (k : Nat) :
    (runAllocator movies (some c) k).2 = some (c + k) := by
  induction k generalizing c with
  | zero => simp [runAllocator]
  | succ k ih =>
    simp [runAllocator, getNextMovieId_normal, ih (c + 1)]
    push_cast
    ring

/-- Every id issued by a normal-path run starting at counter `c` exceeds
`c`. -/
theorem runAllocator_values_gt (movies : List Movie) (c : Int) (k : Nat) :
    ∀ x ∈ (runAllocator movies (some c) k).1, c < x := by
  induction k generalizing c with
  | zero => simp [runAllocator]
  | succ k ih =>
    intro x hx
    simp [runAllocator, getNextMovieId_normal] at hx
    rcases hx with hx | hx
    · omega
    · have := ih (c + 1) x hx
      omega

/-- The ids issued by a normal-path run from a present counter are
strictly increasing in call order. -/
theorem runAllocator_pairwise (movies : List Movie) (c : Int) (k : Nat) :
    ((runAllocator movies (some c) k).1).Pairwise (· < ·) := by
  induction k generalizing c with
  | zero => simp [runAllocator]
  | succ k ih =>
    simp only [runAllocator, getNextMovieId_normal, List.pairwise_cons]
    exact ⟨fun x hx => runAllocator_values_gt movies (c + 1) k x hx, ih (c + 1)⟩

/-- C7: in every sequence of sequential normal-path allocator calls (the
atomic-increment step succeeds on each, so the recovery fallback is never
taken), the returned ids are strictly increasing in call order — hence no
two calls return the same value — and the stored counter after `i + 1`
calls is the starting value plus `i + 1`, so it is monotonically
increasing across the sequence. -/
theorem allocator_sequential_no_duplicates :
    ∀ (movies : List Movie) (counter : Option Int) (k : Nat),
      ((runAllocator movies counter k).1).Pairwise (· < ·) ∧
      ((runAllocator movies counter k).1).Nodup ∧
      (∀ i : Nat,
        (runAllocator movies counter (i + 1)).2
          = some (counter.getD 0 + (i : Int) + 1)) := by
  intro movies counter k
  have hpair : ((runAllocator movies counter k).1).Pairwise (· < ·) := by
    cases counter with
    | some c => exact runAllocator_pairwise movies c k
    | none =>
      cases k with
      | zero => simp [runAllocator]
      | succ k =>
        have hstep : getNextMovieId false none movies = (1, some 1) := rfl
        simp only [runAllocator, hstep, List.pairwise_cons]
        exact ⟨fun x hx => runAllocator_values_gt movies 1 k x hx,
          runAllocator_pairwise movies 1 k⟩
  refine ⟨hpair, hpair.imp (fun h => ne_of_lt h), ?_⟩
  intro i
  cases counter with
  | some c =>
    rw [runAllocator_counter movies c (i + 1)]
    simp
    push_cast
    ring
  | none =>
    have hstep : getNextMovieId false none movies = (1, some 1) := rfl
    show (runAllocator movies none (i + 1)).2 = _
    simp only [runAllocator, hstep]
    rw [runAllocator_counter movies 1 i]
    simp
    omega

/-- Request body of `PUT /movies/update/:id`: every updatable field is
optional; the handler deletes `addedBy`, `_id` and `id` from the payload
before applying `$set`, so those three can be present in the request but
are always stripped. -/
structure UpdatePayload where
  title : Option String := none
  genre : Option String := none
  releaseYear : Option Int := none
  director : Option String := none
  cast : Option (List String) := none
  rating : Option Rat := none
  duration : Option Rat := none
  plotSummary : Option String := none
  posterUrl : Option String := none
  language : Option String := none
  country : Option String := none
  addedBy : Option String := none
  _id : Option JSVal := none
  id : Option JSVal := none
deriving DecidableEq, Repr

/-- The `$set` write of the update handler: apply the payload fields that
survive the strip (owner and identity fields removed) and stamp
`updatedAt` with the current time. -/
def applyUpdatePayload (m : Movie) (p : UpdatePayload) (now : Int) : Movie :=
  { m with
    title := p.title.getD m.title
    genre := p.genre.getD m.genre
    releaseYear := p.releaseYear.getD m.releaseYear
    director := p.director.getD m.director
    cast := p.cast.getD m.cast
    rating := p.rating.getD m.rating
    duration := p.duration.getD m.duration
    plotSummary := p.plotSummary.getD m.plotSummary
    posterUrl := p.posterUrl.getD m.posterUrl
    language := p.language.getD m.language
    country := p.country.getD m.country
    updatedAt := now }

/-- MongoDB `updateOne`: rewrite the first document matching the query. -/
def updateFirst (movies : List Movie) (q : Movie → Bool) (f : Movie → Movie) :
    List Movie :=
  match movies with
  | [] => []
  | m :: rest => if q m then f m :: rest else m :: updateFirst rest q f

/-- The write query both mutation handlers build:
`existing.id ? { id: existing.id } : { _id: existing._id }` (note the
truthiness test — an id of 0 or empty string falls back to `_id`). -/
def movieWriteQuery (existing : Movie) : Movie → Bool :=
  if jsTruthy existing.id then fun m => m.id == existing.id
  else fun m => m._id == existing._id

/-- Embedding of the `PUT /movies/update/:id` handler (lines 759–798):
resolve the movie, compare lowercased requester email with lowercased
stored owner, 403 on mismatch, otherwise `$set` the stripped payload on
the first document matching the write query.  Returns the HTTP status and
the resulting movie collection. -/
def putMoviesUpdate (movies : List Movie) (idParam userEmail : String)
    (body : UpdatePayload) (now : Int) : Nat × List Movie :=
  let requestorEmail := jsToLower userEmail
  match findMovieByIdentifier movies idParam with
  | none => (404, movies)
  | some existing =>
    let ownerEmail := jsToLower existing.addedBy
    if ownerEmail ≠ requestorEmail then (403, movies)
    else
      (200, updateFirst movies (movieWriteQuery existing)
        (fun m => applyUpdatePayload m body now))

/-- Embedding of the `DELETE /movies/:id` handler (lines 801–827): same
resolution and ownership check as update, then `deleteOne` by the write
query. -/
def deleteMovieHandler (movies : List Movie) (idParam userEmail : String) :
    Nat × List Movie :=
  let requestorEmail := jsToLower userEmail
  match findMovieByIdentifier movies idParam with
  | none => (404, movies)
  | some existing =>
    let ownerEmail := jsToLower existing.addedBy
    if ownerEmail ≠ requestorEmail then (403, movies)
    else (200, movies.eraseP (movieWriteQuery existing))

/-- Movie stored with a mixed-case owner email, as the earlier revision of
this server (and any external writer) could produce. -/
def cexMovieC4 : Movie :=
  { _id := .vNum 1, id := .vNum 1, title := "orig", addedBy := "A@x.com" }

/-- C4 counterexample: requester `a@x.com` has a lowercased email that
differs from the stored owner email `A@x.com`, yet update succeeds (200,
record modified) and delete succeeds (200, record removed), because the
code lowercases both sides before comparing. -/
theorem ownership_check_counterexample :
    jsToLower "a@x.com" ≠ cexMovieC4.addedBy ∧
    (putMoviesUpdate [cexMovieC4] "1" "a@x.com" { title := some "changed" } 99).1 = 200 ∧
    (putMoviesUpdate [cexMovieC4] "1" "a@x.com" { title := some "changed" } 99).2
      ≠ [cexMovieC4] ∧
    (deleteMovieHandler [cexMovieC4] "1" "a@x.com").1 = 200 ∧
    (deleteMovieHandler [cexMovieC4] "1" "a@x.com").2 = [] := by decide

/-- C4 (amended): for every existing movie and authenticated requester
whose lowercased email differs from the lowercased stored owner email
(the comparison is case-insensitive on both sides), the update and delete
endpoints return 403 Forbidden and leave the movie collection — in
particular the target record — completely unchanged. -/
theorem ownership_forbidden_amended (movies : List Movie)
    (idParam userEmail : String) (body : UpdatePayload) (now : Int)
    (existing : Movie)
    (hfind : findMovieByIdentifier movies idParam = some existing)
    (hne : jsToLower existing.addedBy ≠ jsToLower userEmail) :
    putMoviesUpdate movies idParam userEmail body now = (403, movies) ∧
    deleteMovieHandler movies idParam userEmail = (403, movies) := by
  unfold putMoviesUpdate deleteMovieHandler
  rw [hfind]
  simp [hne]

/-- Witness for the amended C4: a concrete non-owner request is refused
and the store is untouched. -/
theorem ownership_forbidden_amended_witness :
    putMoviesUpdate [cexMovieC4] "1" "mallory@x.com" { title := some "x" } 7
        = (403, [cexMovieC4]) ∧
    deleteMovieHandler [cexMovieC4] "1" "mallory@x.com" = (403, [cexMovieC4]) :=
  ownership_forbidden_amended [cexMovieC4] "1" "mallory@x.com"
    { title := some "x" } 7 cexMovieC4 (by decide) (by decide)

/-- Denormalized movie summary stored inside a watchlist entry. -/
structure SnapshotFields where
  id : JSVal := .vUndefined
  _id : JSVal := .vUndefined
  title : String := ""
  posterUrl : String := ""
  genre : String := ""
  releaseYear : Int := 0
  rating : Rat := 0
deriving DecidableEq, Repr

/-- A stored watchlist entry: at most one per (userEmail, movieKey);
`movieId` is the numeric identity and `movieKey` its string form. -/
structure WatchlistEntry where
  userEmail : String := ""
  movieId : Int := 0
  movieKey : String := ""
  createdAt : Int := 0
  movieSnapshot : SnapshotFields := {}
deriving DecidableEq, Repr

/-- Embedding of `buildWatchlistIdentifierCandidates` (lines 183–203):
trim the parameter; a positive `parseInt` result contributes the number to
the numeric candidates and its decimal string to the key candidates; a
nonblank identifier contributes itself to the key candidates (the `Set`
keeps insertion order and deduplicates). -/
def buildWatchlistIdentifierCandidates (idParam : String) :
    List Int × List String :=
  let identifier := jsTrim idParam
  let base : List Int × List String :=
    match jsParseInt identifier 10 with
    | some n => if 0 < n then ([n], [toString n]) else ([], [])
    | none => ([], [])
  let keyCandidates :=
    if identifier ≠ "" then
      if base.2.contains identifier then base.2 else base.2 ++ [identifier]
    else base.2
  (base.1, keyCandidates)

/-- The entry predicate of the watchlist remove/status query:
`{userEmail, $or: [movieId ∈ numeric, movieKey ∈ keys]}` (a clause is only
pushed when its candidate list is nonempty; membership in an empty list is
false, so the guard is absorbed). -/
def watchlistEntryMatches (idParam normalizedEmail : String)
    (e : WatchlistEntry) : Bool :=
  let cands := buildWatchlistIdentifierCandidates idParam
  e.userEmail == normalizedEmail &&
    (cands.1.contains e.movieId || cands.2.contains e.movieKey)

/-- Embedding of the `DELETE /watchlist/:movieId` handler (lines 639–684):
401 on blank normalized email, 400 when no candidate at all can be built,
404 when `deleteOne` deletes nothing, else success with the first matching
entry removed. -/
def deleteWatchlistHandler (wl : List WatchlistEntry)
    (idParam userEmail : String) : Nat × List WatchlistEntry :=
  let normalizedEmail := jsToLower (jsTrim userEmail)
  if normalizedEmail = "" then (401, wl)
  else
    let cands := buildWatchlistIdentifierCandidates idParam
    if cands.1.isEmpty && cands.2.isEmpty then (400, wl)
    else
      match wl.find? (watchlistEntryMatches idParam normalizedEmail) with
      | none => (404, wl)
      | some _ => (200, wl.eraseP (watchlistEntryMatches idParam normalizedEmail))

/-- Embedding of the `GET /watchlist/status/:movieId` handler (lines
687–726): same candidate matching as remove, but no candidates or no
match simply answer `isWatchlisted: false`. -/
def watchlistStatusHandler (wl : List WatchlistEntry)
    (idParam userEmail : String) : Nat × Bool :=
  let normalizedEmail := jsToLower (jsTrim userEmail)
  if normalizedEmail = "" then (401, false)
  else
    let cands := buildWatchlistIdentifierCandidates idParam
    if cands.1.isEmpty && cands.2.isEmpty then (200, false)
    else
      (200, (wl.find? (watchlistEntryMatches idParam normalizedEmail)).isSome)

/-- The candidate builder yields no candidate at all exactly when the
trimmed path parameter is blank. -/
theorem candidates_empty_iff (idParam : String) :
    ((buildWatchlistIdentifierCandidates idParam).1.isEmpty &&
      (buildWatchlistIdentifierCandidates idParam).2.isEmpty) = true
    ↔ jsTrim idParam = "" := by
  unfold buildWatchlistIdentifierCandidates
  by_cases h : jsTrim idParam = ""
  · simp [h]
    have : jsParseInt "" 10 = none := rfl
    simp [this]
  · simp only [h, if_neg h]
    rcases hp : jsParseInt (jsTrim idParam) 10 with _ | n
    · simp [h]
    · by_cases hn : 0 < n <;> simp [hn, h] <;> split <;> simp_all

/-- C8: with an authenticated requester, watchlist removal deletes the
first stored entry of that user matching either the numeric candidate or
the string-key candidate built from the path parameter and answers
success; when no entry matches it returns 404 leaving the list unchanged;
and when the parameter yields no candidates at all (blank after trimming)
it returns 400. -/
theorem watchlist_remove_behavior (wl : List WatchlistEntry)
    (idParam userEmail : String)
    (hne : jsToLower (jsTrim userEmail) ≠ "") :
    (jsTrim idParam = "" →
      deleteWatchlistHandler wl idParam userEmail = (400, wl)) ∧
    (∀ e, wl.find? (watchlistEntryMatches idParam (jsToLower (jsTrim userEmail)))
        = some e →
      deleteWatchlistHandler wl idParam userEmail
        = (200, wl.eraseP
            (watchlistEntryMatches idParam (jsToLower (jsTrim userEmail))))) ∧
    (jsTrim idParam ≠ "" →
      wl.find? (watchlistEntryMatches idParam (jsToLower (jsTrim userEmail)))
        = none →
      deleteWatchlistHandler wl idParam userEmail = (404, wl)) := by
  unfold deleteWatchlistHandler
  refine ⟨?_, ?_, ?_⟩
  · intro hblank
    have hempty := (candidates_empty_iff idParam).mpr hblank
    simp [hne, hempty]
  · intro e hfind
    have hnb : jsTrim idParam ≠ "" := by
      intro hblank
      have hempty := (candidates_empty_iff idParam).mpr hblank
      have h1 : (buildWatchlistIdentifierCandidates idParam).1 = [] := by
        rcases Bool.and_eq_true_iff.mp hempty with ⟨ha, _⟩
        simpa using ha
      have h2 : (buildWatchlistIdentifierCandidates idParam).2 = [] := by
        rcases Bool.and_eq_true_iff.mp hempty with ⟨_, hb⟩
        simpa using hb
      have := List.find?_some hfind
      simp only [watchlistEntryMatches] at this
      rw [h1, h2] at this
      simp at this
    have hnotempty : ((buildWatchlistIdentifierCandidates idParam).1.isEmpty &&
        (buildWatchlistIdentifierCandidates idParam).2.isEmpty) = false := by
      cases hb : ((buildWatchlistIdentifierCandidates idParam).1.isEmpty &&
          (buildWatchlistIdentifierCandidates idParam).2.isEmpty) with
      | false => rfl
      | true => exact absurd ((candidates_empty_iff idParam).mp hb) hnb
    simp [hne, hnotempty, hfind]
  · intro hnb hfind
    have hnotempty : ((buildWatchlistIdentifierCandidates idParam).1.isEmpty &&
        (buildWatchlistIdentifierCandidates idParam).2.isEmpty) = false := by
      cases hb : ((buildWatchlistIdentifierCandidates idParam).1.isEmpty &&
          (buildWatchlistIdentifierCandidates idParam).2.isEmpty) with
      | false => rfl
      | true => exact absurd ((candidates_empty_iff idParam).mp hb) hnb
    simp [hne, hnotempty, hfind]

/-- The watchlist entry used to exercise the remove path. -/
def wlEntryW : WatchlistEntry :=
  { userEmail := "u@x.com", movieId := 5, movieKey := "5", createdAt := 3 }

/-- Witness for C8 at a concrete store: removing id "5" as `U@x.com`
deletes the matching entry. -/
theorem watchlist_remove_behavior_witness :
    deleteWatchlistHandler [wlEntryW] "5" "U@x.com" = (200, []) := by
  have h := (watchlist_remove_behavior [wlEntryW] "5" "U@x.com" (by decide)).2.1
    wlEntryW (by decide)
  exact h.trans (by decide)

/-- A list whose member satisfies the predicate has a successful
first-match lookup. -/
theorem find?_isSome_of_mem {α : Type} (l : List α) (p : α → Bool) (x : α)
    (hx : x ∈ l) (hpx : p x = true) : (l.find? p).isSome := by
  simp
  exact ⟨x, hx, hpx⟩

/-- C10: a string whose leading characters parse to a positive integer
`n` but which is not the decimal numeral of `n` itself (trailing
non-numeric characters, e.g. "5abc") is treated as identifying movie `n`:
the reconciler resolves it to the first movie whose `id` field is `n`,
the watchlist candidate builder takes `n` as its numeric candidate, and
the watchlist status and remove handlers match the requester's entry with
`movieId = n` even though the full string is not that movie's
identifier. -/
theorem numeric_prefix_identifier (s : String) (n : Int)
    (hp : jsParseInt (jsTrim s) 10 = some n) (hn : 0 < n)
    (hjunk : jsTrim s ≠ toString n) :
    (∀ (movies : List Movie) (m : Movie),
        movies.find? (fun mv => mv.id == JSVal.vNum n) = some m →
        findMovieByIdentifier movies s = some m) ∧
    (buildWatchlistIdentifierCandidates s).1 = [n] ∧
    (∀ (wl : List WatchlistEntry) (userEmail : String) (e : WatchlistEntry),
        e ∈ wl → e.userEmail = jsToLower (jsTrim userEmail) →
        jsToLower (jsTrim userEmail) ≠ "" → e.movieId = n →
        (watchlistStatusHandler wl s userEmail).2 = true ∧
        (deleteWatchlistHandler wl s userEmail).1 = 200) := by
  have hnone : jsParseInt "" 10 = none := rfl
  have hs1 : ¬(jsTrim s = "") := by
    intro h
    rw [h, hnone] at hp
    cases hp
  have hs0 : ¬(s = "") := by
    intro h
    subst h
    exact hs1 rfl
  have hfst : (buildWatchlistIdentifierCandidates s).1 = [n] := by
    unfold buildWatchlistIdentifierCandidates
    simp [hp, hn]
  refine ⟨?_, hfst, ?_⟩
  · intro movies m hfind
    unfold findMovieByIdentifier
    simp [hs0, hs1, hp, hn, hfind, Option.orElse]
  · intro wl userEmail e hmem heu hne hid
    have hmatch : watchlistEntryMatches s (jsToLower (jsTrim userEmail)) e = true := by
      simp only [watchlistEntryMatches]
      rw [hfst]
      simp [heu, hid]
    have hsome := find?_isSome_of_mem wl
      (watchlistEntryMatches s (jsToLower (jsTrim userEmail))) e hmem hmatch
    have hnotempty : ((buildWatchlistIdentifierCandidates s).1.isEmpty &&
        (buildWatchlistIdentifierCandidates s).2.isEmpty) = false := by
      rw [hfst]
      rfl
    constructor
    · unfold watchlistStatusHandler
      simp [hne, hnotempty, hsome]
    · unfold deleteWatchlistHandler
      obtain ⟨e', he'⟩ := Option.isSome_iff_exists.mp hsome
      simp [hne, hnotempty, he']

/-- Movie with integer id 5 used to witness C10. -/
def witMovieC10 : Movie := { _id := .vNum 5, id := .vNum 5, title := "five" }

/-- Witness for C10 at the identifier "5abc": it resolves to the movie
with id 5, produces numeric candidate 5 and makes the status check
report the entry for movie 5. -/
theorem numeric_prefix_identifier_witness :
    findMovieByIdentifier [witMovieC10] "5abc" = some witMovieC10 ∧
    (buildWatchlistIdentifierCandidates "5abc").1 = [5] ∧
    (watchlistStatusHandler [wlEntryW] "5abc" "u@x.com").2 = true := by
  have h := numeric_prefix_identifier "5abc" 5 (by decide) (by decide) (by decide)
  exact ⟨h.1 [witMovieC10] witMovieC10 (by decide), h.2.1,
    (h.2.2 [wlEntryW] "u@x.com" wlEntryW (by decide) (by decide) (by decide)
      (by decide)).1⟩

/-- The uniqueness discriminant of the watchlist: same user and same
movie key. -/
def watchlistDupPred (user key : String) (x : WatchlistEntry) : Bool :=
  x.userEmail == user && x.movieKey == key

/-- Response of the watchlist add handler: HTTP status, the
`alreadyExists` flag of the body (absent = false), and the resulting
watchlist state. -/
structure WatchAddResult where
  status : Nat
  alreadyExists : Bool
  wl : List WatchlistEntry
deriving DecidableEq, Repr

/-- MongoDB `insertOne` into the watchlist under the unique
`(userEmail, movieKey)` index (created at bootstrap): duplicate-key error
code 11000 when an entry with the same key pair already exists, else
append. -/
def watchlistInsertOne (wl : List WatchlistEntry) (e : WatchlistEntry) :
    Except Nat (List WatchlistEntry) :=
  if wl.any (watchlistDupPred e.userEmail e.movieKey) then Except.error 11000
  else Except.ok (wl ++ [e])

/-- The entry document the add handler builds (lines 602–616):
`movieId` is `Number(converted.id)`, `movieKey` is `String(converted.id)`,
and the snapshot denormalizes the summary fields of the converted
movie. -/
def watchlistEntryOf (normalizedEmail : String) (converted : Movie)
    (now : Int) : WatchlistEntry :=
  { userEmail := normalizedEmail
    movieId := (jsToNumber converted.id).getD 0
    movieKey := jsValToString converted.id
    createdAt := now
    movieSnapshot :=
      { id := converted.id
        _id := converted._id
        title := converted.title
        posterUrl := converted.posterUrl
        genre := converted.genre
        releaseYear := converted.releaseYear
        rating := converted.rating } }

/-- Embedding of the `POST /watchlist/:movieId` handler (lines 563–636).
The duplicate pre-check `findOne` runs against `wlRead` (the state the
handler observed) and the `insertOne` against `wlWrite` (the state at
write time): with no concurrent interference the two coincide; when
another request inserted the same (user, key) pair in between, the insert
hits the unique index and the `error.code === 11000` catch downgrades the
failure to the same success-shaped already-exists response. -/
def postWatchlistAdd (movies : List Movie)
    (wlRead wlWrite : List WatchlistEntry)
    (movieIdParam userEmail : String) (now : Int) : WatchAddResult :=
  let normalizedEmail := jsToLower (jsTrim userEmail)
  if normalizedEmail = "" then ⟨401, false, wlWrite⟩
  else
    match findMovieByIdentifier movies movieIdParam with
    | none => ⟨404, false, wlWrite⟩
    | some movie =>
      let converted := convertMovieToIntegerId movie
      if !(jsTruthy converted._id) then ⟨500, false, wlWrite⟩
      else
        let movieKey := jsValToString converted.id
        match wlRead.find? (watchlistDupPred normalizedEmail movieKey) with
        | some _ => ⟨200, true, wlWrite⟩
        | none =>
          let entry := watchlistEntryOf normalizedEmail converted now
          match watchlistInsertOne wlWrite entry with
          | Except.ok wl2 => ⟨201, false, wl2⟩
          | Except.error code =>
            if code = 11000 then ⟨200, true, wlWrite⟩
            else ⟨500, false, wlWrite⟩

/-- C5: watchlist add is idempotent per (user, movie).  Starting from a
state with no entry for the pair, the first call stores exactly one entry
(201); the second sequential call answers 200 with `alreadyExists: true`
and stores nothing new; and if at insert time the pair already exists in
the written state (a storage-level duplicate-key violation, e.g. from a
concurrent insert that the pre-check missed), the handler answers the
same success-shaped already-exists response and the state is
unchanged. -/
theorem watchlist_add_idempotent (movies : List Movie)
    (wl : List WatchlistEntry) (param userEmail : String) (t1 t2 : Int)
    (mv : Movie)
    (hm : findMovieByIdentifier movies param = some mv)
    (hid : jsTruthy (convertMovieToIntegerId mv)._id = true)
    (hne : jsToLower (jsTrim userEmail) ≠ "")
    (hclean : wl.countP (watchlistDupPred (jsToLower (jsTrim userEmail))
        (jsValToString (convertMovieToIntegerId mv).id)) = 0) :
    ((postWatchlistAdd movies wl wl param userEmail t1).status = 201 ∧
      ((postWatchlistAdd movies wl wl param userEmail t1).wl).countP
        (watchlistDupPred (jsToLower (jsTrim userEmail))
          (jsValToString (convertMovieToIntegerId mv).id)) = 1) ∧
    ((postWatchlistAdd movies
        (postWatchlistAdd movies wl wl param userEmail t1).wl
        (postWatchlistAdd movies wl wl param userEmail t1).wl
        param userEmail t2).status = 200 ∧
      (postWatchlistAdd movies
        (postWatchlistAdd movies wl wl param userEmail t1).wl
        (postWatchlistAdd movies wl wl param userEmail t1).wl
        param userEmail t2).alreadyExists = true ∧
      (postWatchlistAdd movies
        (postWatchlistAdd movies wl wl param userEmail t1).wl
        (postWatchlistAdd movies wl wl param userEmail t1).wl
        param userEmail t2).wl
        = (postWatchlistAdd movies wl wl param userEmail t1).wl) ∧
    (∀ wlW : List WatchlistEntry,
      wlW.any (watchlistDupPred (jsToLower (jsTrim userEmail))
        (jsValToString (convertMovieToIntegerId mv).id)) = true →
      (postWatchlistAdd movies wl wlW param userEmail t2).status = 200 ∧
      (postWatchlistAdd movies wl wlW param userEmail t2).alreadyExists = true ∧
      (postWatchlistAdd movies wl wlW param userEmail t2).wl = wlW) := by
  have hall : ∀ x ∈ wl, ¬(watchlistDupPred (jsToLower (jsTrim userEmail))
      (jsValToString (convertMovieToIntegerId mv).id) x = true) :=
    List.countP_eq_zero.mp hclean
  have hfind : wl.find? (watchlistDupPred (jsToLower (jsTrim userEmail))
      (jsValToString (convertMovieToIntegerId mv).id)) = none :=
    List.find?_eq_none.mpr hall
  have hany : wl.any (watchlistDupPred (jsToLower (jsTrim userEmail))
      (jsValToString (convertMovieToIntegerId mv).id)) = false := by
    rw [List.any_eq_false]
    exact hall
  have hpredE : watchlistDupPred (jsToLower (jsTrim userEmail))
      (jsValToString (convertMovieToIntegerId mv).id)
      (watchlistEntryOf (jsToLower (jsTrim userEmail))
        (convertMovieToIntegerId mv) t1) = true := by
    simp [watchlistDupPred, watchlistEntryOf]
  have hr1 : postWatchlistAdd movies wl wl param userEmail t1
      = ⟨201, false, wl ++ [watchlistEntryOf (jsToLower (jsTrim userEmail))
          (convertMovieToIntegerId mv) t1]⟩ := by
    unfold postWatchlistAdd watchlistInsertOne
    simp [hne, hm, hid, hfind, hany, watchlistEntryOf]
  refine ⟨⟨by rw [hr1], ?_⟩, ?_, ?_⟩
  · rw [hr1]
    simp only [List.countP_append, hclean]
    simp [hpredE]
  · rw [hr1]
    have hfind2 : ((wl ++ [watchlistEntryOf (jsToLower (jsTrim userEmail))
        (convertMovieToIntegerId mv) t1]).find?
        (watchlistDupPred (jsToLower (jsTrim userEmail))
          (jsValToString (convertMovieToIntegerId mv).id))).isSome := by
      apply find?_isSome_of_mem _ _
        (watchlistEntryOf (jsToLower (jsTrim userEmail))
          (convertMovieToIntegerId mv) t1)
        (List.mem_append_right wl (List.mem_singleton_self _))
      exact hpredE
    obtain ⟨e', he'⟩ := Option.isSome_iff_exists.mp hfind2
    unfold postWatchlistAdd
    simp [hne, hm, hid, he']
  · intro wlW hdup
    unfold postWatchlistAdd watchlistInsertOne
    simp [hne, hm, hid, hfind, hdup, watchlistEntryOf]

/-- Witness for C5 at a concrete store: adding movie "5" twice for
`U@x.com` stores once (201) and then reports already-exists. -/
theorem watchlist_add_idempotent_witness :
    (postWatchlistAdd [witMovieC10] [] [] "5" "U@x.com" 1).status = 201 ∧
    (postWatchlistAdd [witMovieC10]
      (postWatchlistAdd [witMovieC10] [] [] "5" "U@x.com" 1).wl
      (postWatchlistAdd [witMovieC10] [] [] "5" "U@x.com" 1).wl
      "5" "U@x.com" 2).alreadyExists = true := by
  have h := watchlist_add_idempotent [witMovieC10] [] "5" "U@x.com" 1 2 witMovieC10
    (by decide) (by decide) (by decide) (by decide)
  exact ⟨h.1.1, h.2.1.2.1⟩

/-- Regular-expression AST for the fragment of PCRE that this embedding
gives semantics to: literals, `.`, character classes with ranges and
negation, alternation, concatenation and the `*`/`+`/`?` quantifiers.
MongoDB evaluates the `search` query value as such a pattern (`$regex`),
not as a literal substring. -/
inductive RE where
  | emp
  | eps
  | chr (c : Char)
  | anyChar
  | cls (neg : Bool) (items : List (Char × Char))
  | alt (a b : RE)
  | cat (a b : RE)
  | star (a : RE)
  | plus (a : RE)
  | opt (a : RE)
deriving DecidableEq, Repr

/-- Case-insensitive character comparison for the `i` regex option. -/
def charMatchesCI (ci : Bool) (pat c : Char) : Bool :=
  pat == c || (ci && (pat.toLower == c.toLower))

/-- Case variant of a character (used by class matching under `i`). -/
def swapCase (c : Char) : Char :=
  if c.isLower then c.toUpper else if c.isUpper then c.toLower else c

/-- Whether a character falls in a class (list of inclusive ranges),
honouring the case-insensitive option via the case-swapped variant. -/
def clsMatches (ci : Bool) (items : List (Char × Char)) (c : Char) : Bool :=
  items.any (fun p =>
    (p.1 ≤ c && c ≤ p.2) || (ci && (p.1 ≤ swapCase c && swapCase c ≤ p.2)))

/-- Nullability: whether the expression matches the empty string. -/
def reNullable : RE → Bool
  | .emp => false
  | .eps => true
  | .chr _ => false
  | .anyChar => false
  | .cls _ _ => false
  | .alt a b => reNullable a || reNullable b
  | .cat a b => reNullable a && reNullable b
  | .star _ => true
  | .plus a => reNullable a
  | .opt _ => true

/-- Brzozowski derivative of the expression by one input character. -/
def reDeriv (ci : Bool) : RE → Char → RE
  | .emp, _ => .emp
  | .eps, _ => .emp
  | .chr p, c => if charMatchesCI ci p c then .eps else .emp
  | .anyChar, _ => .eps
  | .cls neg items, c =>
    if (clsMatches ci items c) != neg then .eps else .emp
  | .alt a b, c => .alt (reDeriv ci a c) (reDeriv ci b c)
  | .cat a b, c =>
    if reNullable a then .alt (.cat (reDeriv ci a c) b) (reDeriv ci b c)
    else .cat (reDeriv ci a c) b
  | .star a, c => .cat (reDeriv ci a c) (.star a)
  | .plus a, c => .cat (reDeriv ci a c) (.star a)
  | .opt a, c => reDeriv ci a c

/-- Whether the expression matches some prefix of the character list. -/
def reMatchesPrefix (ci : Bool) : RE → List Char → Bool
  | r, [] => reNullable r
  | r, c :: cs => reNullable r || reMatchesPrefix ci (reDeriv ci r c) cs

/-- Unanchored search: whether the expression matches somewhere in the
character list (the semantics of `$regex` / `RegExp.test`). -/
def reSearch (ci : Bool) (r : RE) : List Char → Bool
  | [] => reNullable r
  | c :: cs => reMatchesPrefix ci r (c :: cs) || reSearch ci r cs

/-- Class body items: scan until the closing bracket, collecting ranges
`a-b` and singleton characters; a backslash escapes the next character to
a literal.  `none` for an unterminated class. -/
def parseClsItems : List Char → Option (List (Char × Char) × List Char)
  | [] => none
  | ']' :: rest => some ([], rest)
  | '\\' :: e :: rest =>
    match parseClsItems rest with
    | some (items, rest2) => some ((e, e) :: items, rest2)
    | none => none
  | a :: '-' :: b :: rest =>
    if b = ']' then
      match parseClsItems (']' :: rest) with
      | some (items, rest2) => some ((a, a) :: ('-', '-') :: items, rest2)
      | none => none
    else
      match parseClsItems rest with
      | some (items, rest2) => some ((a, b) :: items, rest2)
      | none => none
  | a :: rest =>
    match parseClsItems rest with
    | some (items, rest2) => some ((a, a) :: items, rest2)
    | none => none

/-- Ranges of the `\d`, `\w` and `\s` shorthand classes. -/
def escapeClassItems (e : Char) : Option (Bool × List (Char × Char)) :=
  if e = 'd' then some (false, [('0', '9')])
  else if e = 'D' then some (true, [('0', '9')])
  else if e = 'w' then some (false, [('a', 'z'), ('A', 'Z'), ('0', '9'), ('_', '_')])
  else if e = 'W' then some (true, [('a', 'z'), ('A', 'Z'), ('0', '9'), ('_', '_')])
  else if e = 's' then some (false, [(' ', ' '), (Char.ofNat 9, Char.ofNat 13)])
  else if e = 'S' then some (true, [(' ', ' '), (Char.ofNat 9, Char.ofNat 13)])
  else none

/-- An escaped atom: a shorthand class or the literal character. -/
def escapeAtom (e : Char) : RE :=
  match escapeClassItems e with
  | some (neg, items) => .cls neg items
  | none => .chr e

/-- Characters that cannot begin an atom in the supported fragment
(quantifiers with nothing to repeat, group close, alternation bar, and
the anchors / counted repetitions this model does not support). -/
def atomForbidden (c : Char) : Bool :=
  c == '*' || c == '+' || c == '?' || c == ')' || c == '|' ||
    c == '^' || c == '$' || c == '{' || c == '}'

mutual

/-- Alternation level of the pattern grammar (`a|b`); fuel-bounded
recursive descent over the character list. -/
def parseAlt : Nat → List Char → Option (RE × List Char)
  | 0, _ => none
  | Nat.succ f, cs =>
    match parseCat f cs with
    | none => none
    | some (r, rest) =>
      match rest with
      | '|' :: rest2 =>
        match parseAlt f rest2 with
        | some (r2, rest3) => some (.alt r r2, rest3)
        | none => none
      | _ => some (r, rest)

/-- Concatenation level: a run of quantified atoms, ending at `|`, `)` or
the end of the pattern. -/
def parseCat : Nat → List Char → Option (RE × List Char)
  | 0, _ => none
  | Nat.succ f, cs =>
    match cs with
    | [] => some (.eps, [])
    | ')' :: _ => some (.eps, cs)
    | '|' :: _ => some (.eps, cs)
    | _ =>
      match parseRep f cs with
      | none => none
      | some (r, rest) =>
        match parseCat f rest with
        | some (r2, rest2) => some (.cat r r2, rest2)
        | none => none

/-- Quantifier level: an atom with an optional `*`, `+` or `?`. -/
def parseRep : Nat → List Char → Option (RE × List Char)
  | 0, _ => none
  | Nat.succ f, cs =>
    match parseAtom f cs with
    | none => none
    | some (r, rest) =>
      match rest with
      | '*' :: rest2 => some (.star r, rest2)
      | '+' :: rest2 => some (.plus r, rest2)
      | '?' :: rest2 => some (.opt r, rest2)
      | _ => some (r, rest)

/-- Atom level: group, class, escape, dot or literal character. -/
def parseAtom : Nat → List Char → Option (RE × List Char)
  | 0, _ => none
  | Nat.succ f, cs =>
    match cs with
    | [] => none
    | '(' :: rest =>
      match parseAlt f rest with
      | some (r, ')' :: rest2) => some (r, rest2)
      | _ => none
    | '[' :: '^' :: rest =>
      match parseClsItems rest with
      | some (items, rest2) => some (.cls true items, rest2)
      | none => none
    | '[' :: rest =>
      match parseClsItems rest with
      | some (items, rest2) => some (.cls false items, rest2)
      | none => none
    | '\\' :: e :: rest => some (escapeAtom e, rest)
    | '\\' :: [] => none
    | '.' :: rest => some (.anyChar, rest)
    | c :: rest => if atomForbidden c then none else some (.chr c, rest)

end

/-- Parse a whole pattern within the supported fragment; `none` both for
patterns that are invalid PCRE and for valid ones using features outside
the fragment (anchors, counted repetition, backreferences, ...). -/
def parseRegex (pattern : String) : Option RE :=
  match parseAlt (4 * pattern.length + 8) pattern.data with
  | some (r, []) => some r
  | _ => none

/-- MongoDB `$regex` test with options "i": unanchored case-insensitive
match over a string field. -/
def mongoRegexTest (r : RE) (s : String) : Bool :=
  reSearch true r s.data

-- Engine sanity checks on concrete patterns.
example : (parseRegex "alice").isSome = true := by decide
example :
    (match parseRegex "alice" with
     | some r => mongoRegexTest r "Alice in Chains"
     | none => false) = true := by decide
example :
    (match parseRegex "a+b" with
     | some r => mongoRegexTest r "aab"
     | none => false) = true := by decide
example :
    (match parseRegex "a+b" with
     | some r => mongoRegexTest r "a+b"
     | none => true) = false := by decide

/-- The search part of the movies-list query: the `$or` of the three
case-insensitive `$regex` conditions on title, director and cast (an
array field matches elementwise); no restriction when no search term was
given. -/
def searchMatchesMovie (re : Option RE) (m : Movie) : Bool :=
  match re with
  | none => true
  | some r =>
    mongoRegexTest r m.title || mongoRegexTest r m.director ||
      m.cast.any (fun c => mongoRegexTest r c)

/-- A movie's satisfaction of the query the `GET /movies` handler builds
(lines 302–314): exact genre match unless the genre filter is absent or
`"All"`, conjoined with the search `$or`. -/
def movieMatchesQuery (genre : String) (re : Option RE) (m : Movie) : Bool :=
  (if genre ≠ "" && genre != "All" then m.genre == genre else true) &&
    searchMatchesMovie re m

/-- Descending rating order for `sortBy = "rating"`. -/
def ratingGE (a b : Movie) : Prop := b.rating ≤ a.rating

instance : DecidableRel ratingGE := fun a b => by unfold ratingGE; infer_instance

instance : IsTotal Movie ratingGE := ⟨fun a b => le_total b.rating a.rating⟩

instance : IsTrans Movie ratingGE := ⟨fun _ _ _ h1 h2 => le_trans h2 h1⟩

/-- Descending release-year order for `sortBy = "year"`. -/
def yearGE (a b : Movie) : Prop := b.releaseYear ≤ a.releaseYear

instance : DecidableRel yearGE := fun a b => by unfold yearGE; infer_instance

instance : IsTotal Movie yearGE := ⟨fun a b => le_total b.releaseYear a.releaseYear⟩

instance : IsTrans Movie yearGE := ⟨fun _ _ _ h1 h2 => le_trans h2 h1⟩

/-- Ascending title order for `sortBy = "title"`. -/
def titleLE (a b : Movie) : Prop := a.title ≤ b.title

instance : DecidableRel titleLE := fun a b => by unfold titleLE; infer_instance

instance : IsTotal Movie titleLE := ⟨fun a b => le_total a.title b.title⟩

instance : IsTrans Movie titleLE := ⟨fun _ _ _ h1 h2 => le_trans h1 h2⟩

/-- The sort stage of the handler (lines 316–319): rating descending,
releaseYear descending, title ascending, or the collection's insertion
order for any other sort key. -/
def sortMovies (sortBy : String) (l : List Movie) : List Movie :=
  if sortBy = "rating" then List.insertionSort ratingGE l
  else if sortBy = "year" then List.insertionSort yearGE l
  else if sortBy = "title" then List.insertionSort titleLE l
  else l

/-- Embedding of the `GET /movies` handler (lines 299–335): filter by the
query, sort, then convert every document to integer identity (the
null-filter of the source is vacuous since conversion of a present
document never yields null).  A search pattern that is invalid PCRE — or
valid PCRE outside the fragment this model parses — surfaces as an error
(the real handler answers 500 for the invalid ones). -/
def getMoviesHandler (movies : List Movie) (genre search sortBy : String) :
    Except String (List Movie) :=
  if search ≠ "" then
    match parseRegex search with
    | none => Except.error "invalid or unsupported regex"
    | some r =>
      Except.ok ((sortMovies sortBy
        (movies.filter (movieMatchesQuery genre (some r)))).map
          convertMovieToIntegerId)
  else
    Except.ok ((sortMovies sortBy
      (movies.filter (movieMatchesQuery genre none))).map
        convertMovieToIntegerId)

/-- Conversion to integer identity only rewrites the identity fields; the
fields the list query filters and sorts on are untouched. -/
theorem convert_preserves_query_fields (m : Movie) :
    (convertMovieToIntegerId m).rating = m.rating ∧
    (convertMovieToIntegerId m).releaseYear = m.releaseYear ∧
    (convertMovieToIntegerId m).title = m.title ∧
    (convertMovieToIntegerId m).genre = m.genre := by
  rw [convert_eq_spec m]
  unfold convertMovieToIntegerIdSpec
  rcases hc : idCandidate m with n | _ | s | h | b | _ | _ <;> simp

/-- Whether the second character list starts with the first one. -/
def listHasPrefix : List Char → List Char → Bool
  | [], _ => true
  | _ :: _, [] => false
  | c :: cs, d :: ds => c == d && listHasPrefix cs ds

/-- Whether the first character list occurs contiguously inside the
second (literal substring containment, the relation the original claim
asserts of the search). -/
def listHasInfix (needle : List Char) : List Char → Bool
  | [] => needle.isEmpty
  | c :: cs => listHasPrefix needle (c :: cs) || listHasInfix needle cs

/-- Movie whose cast includes "Alice" while title and director do not
mention her. -/
def aliceMovie : Movie :=
  { _id := .vNum 9, id := .vNum 9, title := "Wonderland", genre := "Fantasy",
    director := "Tim", cast := ["Alice", "Bob"] }

/-- Movie whose title contains the three characters `a+b` literally. -/
def moviePlus : Movie :=
  { _id := .vNum 3, id := .vNum 3, title := "a+b", genre := "Docu" }

/-- C9 counterexample: the search term is fed to `$regex`, not substring
matching — the term "a+b" occurs verbatim (hence case-insensitively as a
substring) in the stored title, yet the list endpoint returns no movie
for it, because as a regex `a+b` requires letters `a` then `b`. -/
theorem search_not_substring_counterexample :
    listHasInfix (jsToLower "a+b").data (jsToLower moviePlus.title).data = true ∧
    getMoviesHandler [moviePlus] "" "a+b" "" = Except.ok [] :=
  ⟨by decide, by rfl⟩

/-- The regex the handler's query carries: none when no search term is
given, else the parsed pattern. -/
def queryREOf (search : String) : Option RE :=
  if search = "" then none else parseRegex search

/-- Shape of the handler output per sort key: sorted by the selected key,
or the filtered collection in insertion order for any other key. -/
theorem sorted_shape (sb : String) (base l : List Movie)
    (hl : l = (sortMovies sb base).map convertMovieToIntegerId) :
    (sb = "rating" → l.Pairwise ratingGE) ∧
    (sb = "year" → l.Pairwise yearGE) ∧
    (sb = "title" → l.Pairwise titleLE) ∧
    (sb ≠ "rating" → sb ≠ "year" → sb ≠ "title" →
      l = base.map convertMovieToIntegerId) := by
  refine ⟨?_, ?_, ?_, ?_⟩
  · intro hsb
    subst hsb
    rw [hl]
    unfold sortMovies
    rw [if_pos rfl]
    have hs := List.sorted_insertionSort ratingGE base
    exact hs.map convertMovieToIntegerId (fun a b hab => by
      unfold ratingGE at hab ⊢
      rw [(convert_preserves_query_fields a).1, (convert_preserves_query_fields b).1]
      exact hab)
  · intro hsb
    subst hsb
    rw [hl]
    unfold sortMovies
    rw [if_neg (by decide), if_pos rfl]
    have hs := List.sorted_insertionSort yearGE base
    exact hs.map convertMovieToIntegerId (fun a b hab => by
      unfold yearGE at hab ⊢
      rw [(convert_preserves_query_fields a).2.1,
        (convert_preserves_query_fields b).2.1]
      exact hab)
  · intro hsb
    subst hsb
    rw [hl]
    unfold sortMovies
    rw [if_neg (by decide), if_neg (by decide), if_pos rfl]
    have hs := List.sorted_insertionSort titleLE base
    exact hs.map convertMovieToIntegerId (fun a b hab => by
      unfold titleLE at hab ⊢
      rw [(convert_preserves_query_fields a).2.2.1,
        (convert_preserves_query_fields b).2.2.1]
      exact hab)
  · intro h1 h2 h3
    rw [hl]
    unfold sortMovies
    rw [if_neg h1, if_neg h2, if_neg h3]

/-- C9 (amended): a genre filter of `"All"` (like an absent one) applies
no genre restriction while any other nonblank genre restricts to exact
matches; the search term is interpreted as a case-insensitive regular
expression matched against title, director and cast (OR-combined) — for
metacharacter-free terms such as "alice" this behaves as substring
matching, so search "alice" returns the movie whose cast includes
"Alice"; and the sort key selects rating descending, releaseYear
descending, title ascending, or insertion order of the store by
default. -/
theorem movies_list_query_amended :
    (∀ (movies : List Movie) (s sb : String),
        getMoviesHandler movies "All" s sb = getMoviesHandler movies "" s sb) ∧
    (∀ (g : String) (re : Option RE) (m : Movie), g ≠ "" → g ≠ "All" →
        movieMatchesQuery g re m = (m.genre == g && searchMatchesMovie re m)) ∧
    (∀ (re : Option RE) (m : Movie),
        movieMatchesQuery "All" re m = searchMatchesMovie re m) ∧
    getMoviesHandler [aliceMovie] "" "alice" "" = Except.ok [aliceMovie] ∧
    (∀ (movies : List Movie) (g s sb : String) (l : List Movie),
        getMoviesHandler movies g s sb = Except.ok l →
        (sb = "rating" → l.Pairwise ratingGE) ∧
        (sb = "year" → l.Pairwise yearGE) ∧
        (sb = "title" → l.Pairwise titleLE) ∧
        (sb ≠ "rating" → sb ≠ "year" → sb ≠ "title" →
          l = (movies.filter (movieMatchesQuery g (queryREOf s))).map
            convertMovieToIntegerId)) := by
  have hq : movieMatchesQuery "All" = movieMatchesQuery "" := by
    funext re m
    rfl
  refine ⟨?_, ?_, ?_, by rfl, ?_⟩
  · intro movies s sb
    unfold getMoviesHandler
    rw [hq]
  · intro g re m hg hA
    unfold movieMatchesQuery
    have hgb : (decide ¬g = "" && (g != "All")) = true := by
      simp [hg, hA]
    rw [if_pos hgb]
  · intro re m
    rfl
  · intro movies g s sb l hok
    by_cases hs : s = ""
    · subst hs
      unfold getMoviesHandler at hok
      simp only [ne_eq, not_true_eq_false, if_false] at hok
      have hl : l = (sortMovies sb
          (movies.filter (movieMatchesQuery g none))).map
            convertMovieToIntegerId := by
        cases hok
        rfl
      have := sorted_shape sb (movies.filter (movieMatchesQuery g none)) l hl
      simpa [queryREOf] using this
    · unfold getMoviesHandler at hok
      rw [if_pos hs] at hok
      rcases hr : parseRegex s with _ | r
      · rw [hr] at hok
        cases hok
      · rw [hr] at hok
        have hl : l = (sortMovies sb
            (movies.filter (movieMatchesQuery g (some r)))).map
              convertMovieToIntegerId := by
          cases hok
          rfl
        have := sorted_shape sb
          (movies.filter (movieMatchesQuery g (some r))) l hl
        have hqre : queryREOf s = some r := by
          unfold queryREOf
          rw [if_neg hs, hr]
        rw [hqre]
        exact this

/-- Witness for the amended C9: a concrete two-movie store listed with
`sortBy = "rating"` comes back rating-sorted. -/
theorem movies_list_query_amended_witness :
    ([moviePlus, aliceMovie] : List Movie).Pairwise ratingGE :=
  (movies_list_query_amended.2.2.2.2 [moviePlus, aliceMovie] "" "" "rating"
    [moviePlus, aliceMovie] (by rfl)).1 rfl
